import Mathlib

/-!
Verification of the RCON client in `src/factorio_mcp/rcon.py` (class
`FactorioRCON`).  The Python code is shallowly embedded: byte strings are
`List Nat` (each element a byte value), `struct.pack`/`struct.unpack` with
format `<i` are modelled as little-endian two-complement 32-bit codecs,
`str.encode("utf-8")` and `bytes.decode("utf-8")` are modelled by an explicit
UTF-8 codec over `List Char`, and the socket is modelled as a scripted inbox
of chunks together with a log of performed I/O events.
-/

set_option maxRecDepth 8192

/-! ## Little-endian signed 32-bit integers (`struct.pack "<i"` / `struct.unpack "<i"`) -/

/-- Little-endian byte decomposition of a natural number below 2^32. -/
def toLE4 (u : Nat) : List Nat :=
  [u % 256, u / 256 % 256, u / 65536 % 256, u / 16777216 % 256]

/-- Two-complement little-endian encoding of an integer (truncated mod 2^32). -/
def le32 (v : Int) : List Nat :=
  toLE4 (v % 4294967296).toNat

/-- Constructor-level test that an integer fits the signed 32-bit range
(equivalent to `-2147483648 ≤ v ∧ v < 2147483648`, see `inInt32Range_iff`). -/
def inInt32Range : Int → Bool
  | .ofNat n => Nat.blt n 2147483648
  | .negSucc n => Nat.blt n 2147483648

theorem inInt32Range_iff (v : Int) :
    inInt32Range v = true ↔ (-2147483648 ≤ v ∧ v < 2147483648) := by
  cases v with
  | ofNat n =>
    simp only [inInt32Range, Nat.blt_eq, Int.ofNat_eq_coe]
    omega
  | negSucc n =>
    simp only [inInt32Range, Nat.blt_eq, Int.negSucc_eq]
    omega

/-- Model of `struct.pack("<i", v)`: fails (struct.error) when `v` is outside
the signed 32-bit range. -/
def packInt32 (v : Int) : Option (List Nat) :=
  if inInt32Range v then some (le32 v) else none

/-- Model of `struct.unpack("<i", bs)`: requires exactly four bytes, returns
the signed little-endian value. -/
def unpackInt32 : List Nat → Option Int
  | [b0, b1, b2, b3] =>
    let u := b0 + b1 * 256 + b2 * 65536 + b3 * 16777216
    some (if u < 2147483648 then (u : Int) else (u : Int) - 4294967296)
  | _ => none

theorem le32_length (v : Int) : (le32 v).length = 4 := rfl

theorem unpackInt32_le32 (v : Int) (h1 : -2147483648 ≤ v) (h2 : v < 2147483648) :
    unpackInt32 (le32 v) = some v := by
  have hnz : (4294967296 : Int) ≠ 0 := by decide
  have hnn : 0 ≤ v % 4294967296 := Int.emod_nonneg v hnz
  have hlt : v % 4294967296 < 4294967296 := Int.emod_lt_of_pos v (by decide)
  have hm : ((v % 4294967296).toNat : Int) = v % 4294967296 := Int.toNat_of_nonneg hnn
  simp only [le32, toLE4, unpackInt32]
  congr 1
  split <;> omega

theorem packInt32_eq (v : Int) (h1 : -2147483648 ≤ v) (h2 : v < 2147483648) :
    packInt32 v = some (le32 v) := by
  simp only [packInt32, if_pos ((inInt32Range_iff v).2 (And.intro h1 h2))]

/-! ## UTF-8 codec (`str.encode("utf-8")` and strict `bytes.decode("utf-8")`) -/

/-- UTF-8 encoding of a single unicode scalar value. -/
def utf8EncodeChar (c : Char) : List Nat :=
  let n := c.toNat
  if n < 128 then [n]
  else if n < 2048 then [192 + n / 64, 128 + n % 64]
  else if n < 65536 then [224 + n / 4096, 128 + n / 64 % 64, 128 + n % 64]
  else [240 + n / 262144, 128 + n / 4096 % 64, 128 + n / 64 % 64, 128 + n % 64]

/-- UTF-8 encoding of a character sequence; models `str.encode("utf-8")`. -/
def utf8Encode : List Char → List Nat
  | [] => []
  | c :: cs => utf8EncodeChar c ++ utf8Encode cs

/-- Decode one two-byte UTF-8 sequence after lead byte `b` (C2..DF). -/
def utf8Decode2 (b : Nat) : List Nat → Option (Char × List Nat)
  | b1 :: r =>
    if 128 ≤ b1 ∧ b1 < 192 then
      some (Char.ofNat ((b - 192) * 64 + (b1 - 128)), r)
    else none
  | [] => none

/-- Decode one three-byte UTF-8 sequence after lead byte `b` (E0..EF),
rejecting overlong forms and surrogates as CPython does. -/
def utf8Decode3 (b : Nat) : List Nat → Option (Char × List Nat)
  | b1 :: b2 :: r =>
    if ((128 ≤ b1 ∧ b1 < 192) ∧ (128 ≤ b2 ∧ b2 < 192)) ∧
        ((b = 224 → 160 ≤ b1) ∧ (b = 237 → b1 < 160)) then
      some (Char.ofNat ((b - 224) * 4096 + (b1 - 128) * 64 + (b2 - 128)), r)
    else none
  | _ => none

/-- Decode one four-byte UTF-8 sequence after lead byte `b` (F0..F4),
rejecting overlong forms and values above 0x10FFFF as CPython does. -/
def utf8Decode4 (b : Nat) : List Nat → Option (Char × List Nat)
  | b1 :: b2 :: b3 :: r =>
    if (((128 ≤ b1 ∧ b1 < 192) ∧ (128 ≤ b2 ∧ b2 < 192)) ∧ (128 ≤ b3 ∧ b3 < 192)) ∧
        ((b = 240 → 144 ≤ b1) ∧ (b = 244 → b1 < 144)) then
      some (Char.ofNat ((b - 240) * 262144 + (b1 - 128) * 4096 + (b2 - 128) * 64 + (b3 - 128)), r)
    else none
  | _ => none

/-- Strict decoding of one UTF-8 scalar from the front of a byte list. -/
def utf8DecodeChar? : List Nat → Option (Char × List Nat)
  | [] => none
  | b :: bs =>
    if b < 128 then some (Char.ofNat b, bs)
    else if b < 194 then none
    else if b < 224 then utf8Decode2 b bs
    else if b < 240 then utf8Decode3 b bs
    else if b < 245 then utf8Decode4 b bs
    else none

theorem utf8Decode2_shrink (b : Nat) (l : List Nat) (c : Char) (rest : List Nat)
    (h : utf8Decode2 b l = some (c, rest)) : rest.length < l.length := by
  match l with
  | [] => simp [utf8Decode2] at h
  | b1 :: r =>
    simp only [utf8Decode2] at h
    split at h
    · cases h; simp
    · cases h

theorem utf8Decode3_shrink (b : Nat) (l : List Nat) (c : Char) (rest : List Nat)
    (h : utf8Decode3 b l = some (c, rest)) : rest.length < l.length := by
  match l with
  | [] => simp [utf8Decode3] at h
  | [b1] => simp [utf8Decode3] at h
  | b1 :: b2 :: r =>
    simp only [utf8Decode3] at h
    split at h
    · cases h; simp; omega
    · cases h

theorem utf8Decode4_shrink (b : Nat) (l : List Nat) (c : Char) (rest : List Nat)
    (h : utf8Decode4 b l = some (c, rest)) : rest.length < l.length := by
  match l with
  | [] => simp [utf8Decode4] at h
  | [b1] => simp [utf8Decode4] at h
  | [b1, b2] => simp [utf8Decode4] at h
  | b1 :: b2 :: b3 :: r =>
    simp only [utf8Decode4] at h
    split at h
    · cases h; simp; omega
    · cases h

theorem utf8DecodeChar?_shrink (l : List Nat) (c : Char) (rest : List Nat)
    (h : utf8DecodeChar? l = some (c, rest)) : rest.length < l.length := by
  match l with
  | [] => simp [utf8DecodeChar?] at h
  | b :: bs =>
    simp only [utf8DecodeChar?] at h
    split at h
    · cases h; simp
    · split at h
      · cases h
      · split at h
        · have := utf8Decode2_shrink b bs c rest h; simp; omega
        · split at h
          · have := utf8Decode3_shrink b bs c rest h; simp; omega
          · split at h
            · have := utf8Decode4_shrink b bs c rest h; simp; omega
            · cases h

/-- Fuel-driven decoding loop; the fuel only needs to dominate the number of
decoded characters, see `utf8DecodeAux_eq`. -/
def utf8DecodeAux : Nat → List Nat → Option (List Char)
  | _, [] => some []
  | 0, _ :: _ => none
  | fuel + 1, b :: bs =>
    match utf8DecodeChar? (b :: bs) with
    | some (c, rest) => (utf8DecodeAux fuel rest).map (c :: ·)
    | none => none

/-- Strict decoding of a whole byte list; models `bytes.decode("utf-8")`,
returning `none` where CPython raises `UnicodeDecodeError`. -/
def utf8Decode? (l : List Nat) : Option (List Char) :=
  utf8DecodeAux l.length l

theorem utf8Decode?_nil : utf8Decode? [] = some [] := rfl

theorem utf8DecodeAux_eq (fuel : Nat) (l : List Nat) (h : l.length ≤ fuel) :
    utf8DecodeAux fuel l = utf8Decode? l := by
  induction fuel using Nat.strong_induction_on generalizing l with
  | _ fuel ih =>
    match fuel, l with
    | f, [] => simp [utf8DecodeAux, utf8Decode?]
    | 0, b :: bs => simp at h
    | fuel + 1, b :: bs =>
      unfold utf8Decode?
      simp only [List.length_cons]
      simp only [utf8DecodeAux]
      cases hdc : utf8DecodeChar? (b :: bs) with
      | none => rfl
      | some p =>
        obtain ⟨c, rest⟩ := p
        show (utf8DecodeAux fuel rest).map (c :: ·) =
          (utf8DecodeAux bs.length rest).map (c :: ·)
        have hlt := utf8DecodeChar?_shrink _ _ _ hdc
        simp only [List.length_cons] at hlt h
        by_cases hfb : fuel = bs.length
        · rw [hfb]
        · rw [ih fuel (by omega) rest (by omega),
            ih bs.length (by omega) rest (by omega)]

theorem utf8EncodeChar_ne_nil (c : Char) : utf8EncodeChar c ≠ [] := by
  simp only [utf8EncodeChar]
  by_cases h1 : c.toNat < 128
  · rw [if_pos h1]; simp
  · rw [if_neg h1]
    by_cases h2 : c.toNat < 2048
    · rw [if_pos h2]; simp
    · rw [if_neg h2]
      by_cases h3 : c.toNat < 65536
      · rw [if_pos h3]; simp
      · rw [if_neg h3]; simp

theorem utf8DecodeChar?_encodeChar (c : Char) (l : List Nat) :
    utf8DecodeChar? (utf8EncodeChar c ++ l) = some (c, l) := by
  have hv : c.toNat < 55296 ∨ (57344 ≤ c.toNat ∧ c.toNat < 1114112) := c.valid
  have hofn : Char.ofNat c.toNat = c := Char.ofNat_toNat c
  simp only [utf8EncodeChar]
  by_cases h1 : c.toNat < 128
  · rw [if_pos h1]
    simp only [List.cons_append, List.nil_append, utf8DecodeChar?]
    rw [if_pos h1, hofn]
  · rw [if_neg h1]
    by_cases h2 : c.toNat < 2048
    · rw [if_pos h2]
      simp only [List.cons_append, List.nil_append, utf8DecodeChar?]
      rw [if_neg (by omega), if_neg (by omega), if_pos (by omega)]
      simp only [utf8Decode2]
      rw [if_pos (by omega)]
      have he : (192 + c.toNat / 64 - 192) * 64 + (128 + c.toNat % 64 - 128) = c.toNat := by
        omega
      rw [he, hofn]
    · rw [if_neg h2]
      by_cases h3 : c.toNat < 65536
      · rw [if_pos h3]
        simp only [List.cons_append, List.nil_append, utf8DecodeChar?]
        rw [if_neg (by omega), if_neg (by omega), if_neg (by omega), if_pos (by omega)]
        simp only [utf8Decode3]
        rw [if_pos (by omega)]
        have he : (224 + c.toNat / 4096 - 224) * 4096 + (128 + c.toNat / 64 % 64 - 128) * 64 +
            (128 + c.toNat % 64 - 128) = c.toNat := by omega
        rw [he, hofn]
      · rw [if_neg h3]
        simp only [List.cons_append, List.nil_append, utf8DecodeChar?]
        rw [if_neg (by omega), if_neg (by omega), if_neg (by omega), if_neg (by omega),
          if_pos (by omega)]
        simp only [utf8Decode4]
        rw [if_pos (by omega)]
        have he : (240 + c.toNat / 262144 - 240) * 262144 +
            (128 + c.toNat / 4096 % 64 - 128) * 4096 +
            (128 + c.toNat / 64 % 64 - 128) * 64 + (128 + c.toNat % 64 - 128) = c.toNat := by
          omega
        rw [he, hofn]

theorem utf8Decode?_encodeChar_append (c : Char) (l : List Nat) :
    utf8Decode? (utf8EncodeChar c ++ l) = (utf8Decode? l).map (c :: ·) := by
  obtain ⟨b, bs, hbs, hlen⟩ :
      ∃ b bs, utf8EncodeChar c ++ l = b :: bs ∧ l.length ≤ bs.length := by
    cases he : utf8EncodeChar c with
    | nil => exact absurd he (utf8EncodeChar_ne_nil c)
    | cons x xs => exact ⟨x, xs ++ l, by simp [he], by simp⟩
  unfold utf8Decode?
  rw [hbs]
  simp only [List.length_cons]
  simp only [utf8DecodeAux]
  rw [← hbs, utf8DecodeChar?_encodeChar]
  show (utf8DecodeAux bs.length l).map (c :: ·) = (utf8DecodeAux l.length l).map (c :: ·)
  rw [utf8DecodeAux_eq bs.length l hlen]
  rfl

theorem utf8Decode?_utf8Encode (s : List Char) : utf8Decode? (utf8Encode s) = some s := by
  induction s with
  | nil => exact utf8Decode?_nil
  | cons c cs ih =>
    simp only [utf8Encode]
    rw [utf8Decode?_encodeChar_append, ih]
    rfl

/-! ## The `FactorioRCON` client model

Transcribed from `src/factorio_mcp/rcon.py`.  Python exceptions become the
constructors of `PyErr`; the TCP socket becomes a `Sock` holding the chunks
the peer will deliver (`inbox`) and the bytes sent so far; every socket
system call is additionally logged in the session `events` list so that
"performs no I/O" claims are observable. -/

/-- The Python exceptions the client can raise. -/
inductive PyErr where
  /-- `struct.error` from `struct.pack`/`struct.unpack`. -/
  | structError
  /-- `ValueError` from `socket.recv` called with a negative count. -/
  | valueError
  /-- `UnicodeDecodeError` from strict `bytes.decode("utf-8")`. -/
  | unicodeDecodeError
  /-- `RuntimeError("Not connected to server")`. -/
  | runtimeNotConnected
  /-- `ConnectionError("Authentication failed")`. -/
  | connectionAuthFailed
deriving DecidableEq, Repr

/-- Observable socket system calls. -/
inductive Ev where
  /-- `socket.send(bs)`. -/
  | send (bs : List Nat)
  /-- `socket.recv(n)` (the count as passed, possibly negative). -/
  | recvReq (n : Int)
  /-- `socket.close()`. -/
  | sockClose
deriving DecidableEq, Repr

/-- A connected TCP socket: the chunks the peer will deliver, and the bytes
written so far. -/
structure Sock where
  inbox : List (List Nat)
  sent : List Nat
deriving DecidableEq, Repr

/-- Model of `socket.recv(n)` for `n ≥ 0`: returns up to `n` bytes from the
head of the pending inbox; an exhausted inbox models a closed stream and
yields the empty byte string. -/
def Sock.recv (sk : Sock) (n : Nat) : List Nat × Sock :=
  match sk.inbox with
  | [] => ([], sk)
  | c :: rest =>
    (c.take n, { sk with inbox := if c.drop n = [] then rest else c.drop n :: rest })

/-- The `FactorioRCON` instance state: `__init__` fields plus the I/O log. -/
structure RCON where
  host : String
  port : Int
  password : String
  sock : Option Sock
  requestId : Int
  events : List Ev
deriving DecidableEq, Repr

/-- `FactorioRCON.__init__(host, port, password)`. -/
def initRCON (host : String) (port : Int) (password : String) : RCON :=
  { host := host, port := port, password := password,
    sock := none, requestId := 1, events := [] }

/-- The packet bytes built by `_send_packet`: `struct.pack("<iii", size, id, type)`
followed by the UTF-8 body and two null bytes, where `size = 10 + len(body_bytes)`. -/
def buildPacket (requestId ptype : Int) (body : String) : Option (List Nat) :=
  let bodyBytes := utf8Encode body.data
  let packetSize : Int := 10 + bodyBytes.length
  match packInt32 packetSize, packInt32 requestId, packInt32 ptype with
  | some sb, some ib, some tb => some (sb ++ ib ++ tb ++ bodyBytes ++ [0, 0])
  | _, _, _ => none

/-- `FactorioRCON._send_packet(packet_type, body)`: raises when not connected,
builds and sends one packet, then increments `request_id`. -/
def sendPacket (ptype : Int) (body : String) (st : RCON) : Except PyErr Unit × RCON :=
  match st.sock with
  | none => (.error .runtimeNotConnected, st)
  | some sk =>
    match buildPacket st.requestId ptype body with
    | none => (.error .structError, st)
    | some pkt =>
      (.ok (), { st with sock := some { sk with sent := sk.sent ++ pkt },
                         events := st.events ++ [Ev.send pkt],
                         requestId := st.requestId + 1 })

/-- The pure tail of `_receive_packet`: `struct.unpack("<ii", data[:8])` and
`data[8:-2].decode("utf-8")`, yielding `(packet_size, request_id, packet_type, body)`. -/
def parsePayload (packetSize : Int) (data : List Nat) :
    Except PyErr (Int × Int × Int × String) :=
  match unpackInt32 (data.take 4), unpackInt32 ((data.drop 4).take 4) with
  | some rid, some pt =>
    match utf8Decode? ((data.drop 8).dropLast.dropLast) with
    | some cs => .ok (packetSize, rid, pt, String.mk cs)
    | none => .error .unicodeDecodeError
  | _, _ => .error .structError

/-- `FactorioRCON._receive_packet()`: one `recv(4)` for the size field, one
`recv(packet_size)` for the payload (no loop), then parse. -/
def receivePacket (st : RCON) : Except PyErr (Int × Int × Int × String) × RCON :=
  match st.sock with
  | none => (.error .runtimeNotConnected, st)
  | some sk =>
    let r4 := sk.recv 4
    let st1 := { st with sock := some r4.2, events := st.events ++ [Ev.recvReq 4] }
    match unpackInt32 r4.1 with
    | none => (.error .structError, st1)
    | some packetSize =>
      if packetSize < 0 then
        (.error .valueError, { st1 with events := st1.events ++ [Ev.recvReq packetSize] })
      else
        let rp := r4.2.recv packetSize.toNat
        let st2 := { st1 with sock := some rp.2,
                              events := st1.events ++ [Ev.recvReq packetSize] }
        (parsePayload packetSize rp.1, st2)

/-- `FactorioRCON.connect()`: install a fresh socket whose peer will deliver
`inbox`, send the AUTH packet (type 3) with the password, read one response
and raise `ConnectionError` when `response[2] != self.request_id`. -/
def connect (inbox : List (List Nat)) (st : RCON) : Except PyErr Unit × RCON :=
  let st0 := { st with sock := some { inbox := inbox, sent := [] } }
  match sendPacket 3 st0.password st0 with
  | (.error e, st1) => (.error e, st1)
  | (.ok _, st1) =>
    match receivePacket st1 with
    | (.error e, st2) => (.error e, st2)
    | (.ok resp, st2) =>
      if resp.2.2.1 = st2.requestId then (.ok (), st2)
      else (.error .connectionAuthFailed, st2)

/-- `FactorioRCON.send_command(command)`: raise when the socket handle is
absent, else send an EXECCOMMAND packet (type 2) and return the response body. -/
def sendCommand (command : String) (st : RCON) : Except PyErr String × RCON :=
  match st.sock with
  | none => (.error .runtimeNotConnected, st)
  | some _ =>
    match sendPacket 2 command st with
    | (.error e, st1) => (.error e, st1)
    | (.ok _, st1) =>
      match receivePacket st1 with
      | (.error e, st2) => (.error e, st2)
      | (.ok resp, st2) => (.ok resp.2.2.2, st2)

/-- `FactorioRCON.close()`: close the socket and clear the handle when one is
present, otherwise do nothing. -/
def close (st : RCON) : RCON :=
  match st.sock with
  | none => st
  | some _ => { st with sock := none, events := st.events ++ [Ev.sockClose] }

/-- The `with FactorioRCON(...)` statement: `__enter__` runs `connect` and
hands the session to the block; an exception inside `__enter__` propagates
without entering the block; otherwise `__exit__` runs `close` on every exit
path and the result of the block (normal or exceptional) propagates. -/
def withRCON {α : Type} (inbox : List (List Nat)) (st : RCON)
    (body : RCON → Except PyErr α × RCON) : Except PyErr α × RCON :=
  match connect inbox st with
  | (.error e, st1) => (.error e, st1)
  | (.ok _, st1) =>
    let r := body st1
    (r.1, close r.2)

/-- A session already holding a connected socket with scripted inbox, as used
to state codec-level claims. -/
def withInbox (inbox : List (List Nat)) : RCON :=
  { initRCON "localhost" 27015 "pw" with sock := some { inbox := inbox, sent := [] } }

/-! ## Session-level helper lemmas -/

theorem close_sock (st : RCON) : (close st).sock = none := by
  cases hs : st.sock <;> simp [close, hs]

theorem sendPacket_sock_isSome (t : Int) (b : String) (st : RCON)
    (h : st.sock.isSome) : ((sendPacket t b st).2).sock.isSome := by
  cases hs : st.sock with
  | none => rw [hs] at h; cases h
  | some sk =>
    simp only [sendPacket, hs]
    cases buildPacket st.requestId t b <;> simp [hs]

theorem receivePacket_sock_isSome (st : RCON) (h : st.sock.isSome) :
    ((receivePacket st).2).sock.isSome := by
  cases hs : st.sock with
  | none => rw [hs] at h; cases h
  | some sk =>
    simp only [receivePacket, hs]
    cases unpackInt32 (sk.recv 4).1 with
    | none => simp
    | some packetSize =>
      by_cases hneg : packetSize < 0 <;> simp [hneg]

theorem connect_sock_isSome (inbox : List (List Nat)) (st : RCON) :
    ((connect inbox st).2).sock.isSome := by
  simp only [connect]
  rcases hsp : sendPacket 3
      { st with sock := some { inbox := inbox, sent := [] } }.password
      { st with sock := some { inbox := inbox, sent := [] } } with ⟨r1, st1⟩
  have h1 : st1.sock.isSome := by
    have := sendPacket_sock_isSome 3
      { st with sock := some { inbox := inbox, sent := [] } }.password
      { st with sock := some { inbox := inbox, sent := [] } } (by simp)
    rw [hsp] at this; exact this
  cases r1 with
  | error e => simp only [hsp]; exact h1
  | ok _ =>
    rcases hrp : receivePacket st1 with ⟨r2, st2⟩
    have h2 : st2.sock.isSome := by
      have := receivePacket_sock_isSome st1 h1
      rw [hrp] at this; exact this
    cases r2 with
    | error e => simp [hsp, hrp, h2]
    | ok resp =>
      by_cases hid : resp.2.2.1 = st2.requestId <;> simp [hsp, hrp, hid, h2]

theorem close_of_sock_none (st : RCON) (h : st.sock = none) : close st = st := by
  simp [close, h]

/-! ## Claims -/

/-- C1: the claim says `connect` succeeds iff the response packet's id field
equals the id assigned to the AUTH request, failing for every other id
(including -1).  The code instead compares `response[2]` — the packet TYPE
field — against the already incremented request counter: a response with
id -1 and type 2 is accepted, while a response echoing the assigned id 1
with type 0 is rejected. -/
theorem c1_auth_check_not_id_correlated :
    (connect [[10, 0, 0, 0, 255, 255, 255, 255, 2, 0, 0, 0, 0, 0]]
        (initRCON "localhost" 27015 "pw")).1 = .ok () ∧
    (connect [[10, 0, 0, 0, 1, 0, 0, 0, 0, 0, 0, 0, 0, 0]]
        (initRCON "localhost" 27015 "pw")).1 = .error .connectionAuthFailed :=
  ⟨rfl, rfl⟩

/-- C2: the claim says the decoder loops on short reads until the declared
payload size is accumulated, so 1-byte-chunk delivery parses identically to
one-chunk delivery.  `_receive_packet` issues a single `recv(4)` and a single
`recv(packet_size)`: the same 16-byte packet parses as `(12, 5, 0, "hi")`
when delivered in one chunk but raises struct.error when delivered in
1-byte chunks. -/
theorem c2_single_recv_not_chunk_robust :
    (receivePacket (withInbox
        [[12, 0, 0, 0, 5, 0, 0, 0, 0, 0, 0, 0, 104, 105, 0, 0]])).1
      = .ok (12, 5, 0, "hi") ∧
    (receivePacket (withInbox
        ([12, 0, 0, 0, 5, 0, 0, 0, 0, 0, 0, 0, 104, 105, 0, 0].map (fun b => [b])))).1
      = .error .structError :=
  ⟨rfl, rfl⟩

/-- C7 counterexample: after `connect` fails with the authentication error,
the session still holds the socket and a subsequent `send_command` performs
I/O and even succeeds, contradicting the claim that every caller-visible
failure leaves the session in an Error or Closed state with no usable
connection. -/
theorem c7_failed_auth_leaves_usable_socket :
    (connect [[10, 0, 0, 0, 1, 0, 0, 0, 0, 0, 0, 0, 0, 0],
              [12, 0, 0, 0, 9, 0, 0, 0, 0, 0, 0, 0, 111, 107, 0, 0]]
        (initRCON "localhost" 27015 "pw")).1 = .error .connectionAuthFailed ∧
    (connect [[10, 0, 0, 0, 1, 0, 0, 0, 0, 0, 0, 0, 0, 0],
              [12, 0, 0, 0, 9, 0, 0, 0, 0, 0, 0, 0, 111, 107, 0, 0]]
        (initRCON "localhost" 27015 "pw")).2.sock ≠ none ∧
    (sendCommand "x"
        (connect [[10, 0, 0, 0, 1, 0, 0, 0, 0, 0, 0, 0, 0, 0],
                  [12, 0, 0, 0, 9, 0, 0, 0, 0, 0, 0, 0, 111, 107, 0, 0]]
            (initRCON "localhost" 27015 "pw")).2).1 = .ok "ok" :=
  ⟨rfl, fun h => Option.noConfusion h, rfl⟩

/-- C7 amended: when the authentication check in `connect` fails and raises,
the session keeps its socket handle set (it is not closed or cleared), so a
subsequent `send_command` can still perform I/O on the open connection. -/
theorem c7_auth_failure_keeps_socket (inbox : List (List Nat)) (st : RCON)
    (h : (connect inbox st).1 = .error .connectionAuthFailed) :
    (connect inbox st).2.sock ≠ none := by
  have hs := connect_sock_isSome inbox st
  intro hn
  rw [hn] at hs
  cases hs

/-- C7 amended witness: the amended statement instantiated at the concrete
auth-rejecting server script. -/
theorem c7_auth_failure_keeps_socket_witness :
    (connect [[10, 0, 0, 0, 1, 0, 0, 0, 0, 0, 0, 0, 0, 0]]
        (initRCON "localhost" 27015 "pw")).2.sock ≠ none :=
  c7_auth_failure_keeps_socket _ _ rfl

/-- C8: calling `send_command` on a session whose socket handle is absent
(never connected, or closed) raises the wrong-state error and leaves the
session state — including the I/O event log — completely unchanged: no bytes
are sent and no read is attempted. -/
theorem c8_no_io_when_not_connected (command : String) (st : RCON)
    (h : st.sock = none) :
    sendCommand command st = (.error .runtimeNotConnected, st) := by
  simp [sendCommand, h]

/-- C8 witness: `send_command` on a fresh, never-connected session. -/
theorem c8_no_io_when_not_connected_witness :
    sendCommand "/version" (initRCON "localhost" 27015 "pw")
      = (.error .runtimeNotConnected, initRCON "localhost" 27015 "pw") :=
  c8_no_io_when_not_connected "/version" (initRCON "localhost" 27015 "pw") rfl

/-- C9: the first `close` clears the socket handle, and any further `close`
is a no-op: it does not raise and performs no second socket close syscall
(the state, including the event log, is unchanged). -/
theorem c9_close_idempotent (st : RCON) :
    (close st).sock = none ∧ close (close st) = close st :=
  ⟨close_sock st, close_of_sock_none (close st) (close_sock st)⟩

/-- C10: when `connect` inside `__enter__` succeeds, the with-statement runs
the block on the connected session and `__exit__` closes on every exit path:
the final session has no socket handle, and the block's outcome (normal
result or exception) propagates unchanged. -/
theorem c10_context_manager_always_closes {α : Type} (inbox : List (List Nat))
    (st : RCON) (body : RCON → Except PyErr α × RCON)
    (h : (connect inbox st).1 = .ok ()) :
    (withRCON inbox st body).2.sock = none ∧
    (withRCON inbox st body).1 = (body (connect inbox st).2).1 := by
  rcases hc : connect inbox st with ⟨r1, st1⟩
  rw [hc] at h
  simp only at h
  subst h
  simp only [withRCON, hc]
  exact ⟨close_sock _, trivial⟩

/-- C10 witness: a server that accepts authentication, with a block that
returns normally. -/
theorem c10_context_manager_always_closes_witness :
    (withRCON [[10, 0, 0, 0, 1, 0, 0, 0, 2, 0, 0, 0, 0, 0]]
        (initRCON "localhost" 27015 "pw") (fun s => (.ok (0 : Nat), s))).2.sock = none ∧
    (withRCON [[10, 0, 0, 0, 1, 0, 0, 0, 2, 0, 0, 0, 0, 0]]
        (initRCON "localhost" 27015 "pw") (fun s => (.ok (0 : Nat), s))).1 =
      ((fun s => ((.ok (0 : Nat) : Except PyErr Nat), s))
        (connect [[10, 0, 0, 0, 1, 0, 0, 0, 2, 0, 0, 0, 0, 0]]
          (initRCON "localhost" 27015 "pw")).2).1 :=
  c10_context_manager_always_closes
    [[10, 0, 0, 0, 1, 0, 0, 0, 2, 0, 0, 0, 0, 0]]
    (initRCON "localhost" 27015 "pw") (fun s => (.ok (0 : Nat), s)) rfl

theorem stringMk_data (s : String) : String.mk s.data = s := rfl

theorem parsePayload_wellformed (S rid pt : Int) (B : List Nat)
    (hr1 : -2147483648 ≤ rid) (hr2 : rid < 2147483648)
    (ht1 : -2147483648 ≤ pt) (ht2 : pt < 2147483648) :
    parsePayload S (le32 rid ++ le32 pt ++ B ++ [0, 0]) =
      match utf8Decode? B with
      | some cs => .ok (S, rid, pt, String.mk cs)
      | none => .error .unicodeDecodeError := by
  have h1 : (le32 rid ++ le32 pt ++ B ++ [0, 0]).take 4 = le32 rid := by
    rw [List.append_assoc, List.append_assoc]
    exact List.take_left' (le32_length rid)
  have h2 : ((le32 rid ++ le32 pt ++ B ++ [0, 0]).drop 4).take 4 = le32 pt := by
    rw [List.append_assoc, List.append_assoc, List.drop_left' (le32_length rid)]
    exact List.take_left' (le32_length pt)
  have h3 : (le32 rid ++ le32 pt ++ B ++ [0, 0]).drop 8 = B ++ [0, 0] := by
    rw [List.append_assoc (le32 rid ++ le32 pt) B [0, 0]]
    exact List.drop_left' (by simp [le32_length])
  have h4 : (B ++ [0, 0] : List Nat).dropLast.dropLast = B := by
    have hsplit : B ++ [0, 0] = (B ++ [0]) ++ [0] := by simp
    rw [hsplit, List.dropLast_concat, List.dropLast_concat]
  unfold parsePayload
  rw [h1, h2, h3, h4, unpackInt32_le32 rid hr1 hr2, unpackInt32_le32 pt ht1 ht2]

theorem receivePacket_parse (rid pt : Int) (B : List Nat)
    (hlen : B.length + 10 < 2147483648) :
    (receivePacket (withInbox
        [le32 (10 + (B.length : Int)) ++ (le32 rid ++ le32 pt ++ B ++ [0, 0])])).1 =
      parsePayload (10 + (B.length : Int)) (le32 rid ++ le32 pt ++ B ++ [0, 0]) := by
  have hpk4 : (le32 (10 + (B.length : Int)) ++ (le32 rid ++ le32 pt ++ B ++ [0, 0])).take 4
      = le32 (10 + (B.length : Int)) := List.take_left' (le32_length _)
  have hpkd : (le32 (10 + (B.length : Int)) ++ (le32 rid ++ le32 pt ++ B ++ [0, 0])).drop 4
      = le32 rid ++ le32 pt ++ B ++ [0, 0] := List.drop_left' (le32_length _)
  have hRlen : (le32 rid ++ le32 pt ++ B ++ [0, 0]).length = 10 + B.length := by
    simp [le32_length]
    omega
  have hRne : le32 rid ++ le32 pt ++ B ++ [0, 0] ≠ [] := by
    intro hcon
    have := congrArg List.length hcon
    rw [hRlen] at this
    simp at this
  have hS : unpackInt32 (le32 (10 + (B.length : Int))) = some (10 + (B.length : Int)) :=
    unpackInt32_le32 _ (by omega) (by omega)
  have hSnn : ¬ ((10 + (B.length : Int)) < 0) := by omega
  have hSt : (10 + (B.length : Int)).toNat = 10 + B.length := by omega
  have hRtake : (le32 rid ++ le32 pt ++ B ++ [0, 0]).take (10 + B.length)
      = le32 rid ++ le32 pt ++ B ++ [0, 0] := List.take_of_length_le (by omega)
  have hRdrop : (le32 rid ++ le32 pt ++ B ++ [0, 0]).drop (10 + B.length) = [] :=
    List.drop_of_length_le (by omega)
  simp only [receivePacket, withInbox, initRCON, Sock.recv]
  rw [hpk4, hpkd, if_neg hRne, hS]
  dsimp only
  rw [if_neg hSnn, hSt, hRtake, hRdrop, if_pos rfl]

theorem buildPacket_eq (rid ptype : Int) (body : String)
    (hr1 : -2147483648 ≤ rid) (hr2 : rid < 2147483648)
    (ht1 : -2147483648 ≤ ptype) (ht2 : ptype < 2147483648)
    (hlen : (utf8Encode body.data).length + 10 < 2147483648) :
    buildPacket rid ptype body =
      some (le32 (10 + ((utf8Encode body.data).length : Int)) ++
        (le32 rid ++ le32 ptype ++ utf8Encode body.data ++ [0, 0])) := by
  unfold buildPacket
  dsimp only
  rw [packInt32_eq (10 + ((utf8Encode body.data).length : Int)) (by omega) (by omega),
    packInt32_eq rid hr1 hr2, packInt32_eq ptype ht1 ht2]
  rfl

/-- C3 counterexample: a header declaring size 100000000 does not fail fast
with any guard error; the decoder logs a `recv` request for 100000000 bytes
(the read is attempted) and the failure that surfaces is the downstream
struct.error from the short read — the code has no ProtocolError at all. -/
theorem c3_oversized_size_not_guarded :
    (receivePacket (withInbox [le32 100000000])).1 = .error .structError ∧
    (receivePacket (withInbox [le32 100000000])).2.events
      = [Ev.recvReq 4, Ev.recvReq 100000000] :=
  ⟨rfl, rfl⟩

/-- C3 amended: the decoder performs no validation of the declared size:
after reading any header carrying a nonnegative size `s` — however large —
it immediately issues a `recv` request for `s` bytes instead of failing
fast. -/
theorem c3_size_read_attempted (s : Int) (more : List (List Nat)) (snt : List Nat)
    (st : RCON) (hs0 : 0 ≤ s) (hs1 : s < 2147483648)
    (hsk : st.sock = some { inbox := le32 s :: more, sent := snt }) :
    (receivePacket st).2.events = st.events ++ [Ev.recvReq 4, Ev.recvReq s] := by
  have h4 : (le32 s).take 4 = le32 s := List.take_of_length_le (by rw [le32_length])
  have hd : (le32 s).drop 4 = [] := List.drop_of_length_le (by rw [le32_length])
  have hS := unpackInt32_le32 s (by omega) hs1
  have hSnn : ¬ (s < 0) := by omega
  simp only [receivePacket, hsk, Sock.recv]
  rw [h4, hd, if_pos rfl, hS]
  dsimp only
  rw [if_neg hSnn]
  simp [List.append_assoc]

/-- C3 amended witness: the amended statement at the claim's concrete size
100000000. -/
theorem c3_size_read_attempted_witness :
    (receivePacket (withInbox [le32 100000000])).2.events
      = (withInbox [le32 100000000]).events ++ [Ev.recvReq 4, Ev.recvReq 100000000] :=
  c3_size_read_attempted 100000000 [] [] (withInbox [le32 100000000])
    (by decide) (by decide) rfl

/-- C4: round-trip of the packet codec: for every int32 request id and packet
type and every body string within the size ceiling (and, per the claim,
without embedded null bytes), decoding the bytes produced by encoding
reproduces the same id, type, and body exactly. -/
theorem c4_codec_roundtrip (rid ptype : Int) (body : String)
    (hr1 : -2147483648 ≤ rid) (hr2 : rid < 2147483648)
    (ht1 : -2147483648 ≤ ptype) (ht2 : ptype < 2147483648)
    (hlen : (utf8Encode body.data).length + 10 < 2147483648)
    (hnull : (0 : Nat) ∉ utf8Encode body.data) :
    ∃ pkt, buildPacket rid ptype body = some pkt ∧
      (receivePacket (withInbox [pkt])).1 =
        .ok (10 + ((utf8Encode body.data).length : Int), rid, ptype, body) := by
  refine ⟨_, buildPacket_eq rid ptype body hr1 hr2 ht1 ht2 hlen, ?_⟩
  rw [receivePacket_parse rid ptype (utf8Encode body.data) hlen,
    parsePayload_wellformed _ rid ptype (utf8Encode body.data) hr1 hr2 ht1 ht2,
    utf8Decode?_utf8Encode]

/-- C4 witness: the round-trip at request id 5, type 0, body `"hi"`. -/
theorem c4_codec_roundtrip_witness :
    ∃ pkt, buildPacket 5 0 "hi" = some pkt ∧
      (receivePacket (withInbox [pkt])).1 =
        .ok (10 + ((utf8Encode "hi".data).length : Int), 5, 0, "hi") :=
  c4_codec_roundtrip 5 0 "hi" (by decide) (by decide) (by decide) (by decide)
    (by decide) (by decide)

/-- C5: the size field written at offset 0 of every encoded packet equals
`4 (id) + 4 (type) + len(utf8(body)) + 2`, and the packet is a 12-byte header
followed by the body bytes and exactly two null bytes. -/
theorem c5_size_field_invariant (rid ptype : Int) (body : String)
    (hr1 : -2147483648 ≤ rid) (hr2 : rid < 2147483648)
    (ht1 : -2147483648 ≤ ptype) (ht2 : ptype < 2147483648)
    (hlen : (utf8Encode body.data).length + 10 < 2147483648) :
    ∃ pkt, buildPacket rid ptype body = some pkt ∧
      unpackInt32 (pkt.take 4) = some (4 + 4 + ((utf8Encode body.data).length : Int) + 2) ∧
      ∃ hdr, hdr.length = 12 ∧ pkt = hdr ++ utf8Encode body.data ++ [0, 0] := by
  refine ⟨_, buildPacket_eq rid ptype body hr1 hr2 ht1 ht2 hlen, ?_, ?_⟩
  · rw [List.take_left' (le32_length _), unpackInt32_le32 _ (by omega) (by omega)]
    congr 1
    omega
  · exact ⟨le32 (10 + ((utf8Encode body.data).length : Int)) ++ le32 rid ++ le32 ptype,
      by simp [le32_length], by simp [List.append_assoc]⟩

/-- C5 witness: the size-field invariant at request id 5, type 0, body `"hi"`. -/
theorem c5_size_field_invariant_witness :
    ∃ pkt, buildPacket 5 0 "hi" = some pkt ∧
      unpackInt32 (pkt.take 4) = some (4 + 4 + ((utf8Encode "hi".data).length : Int) + 2) ∧
      ∃ hdr, hdr.length = 12 ∧ pkt = hdr ++ utf8Encode "hi".data ++ [0, 0] :=
  c5_size_field_invariant 5 0 "hi" (by decide) (by decide) (by decide) (by decide)
    (by decide)

/-- C6 counterexample: a payload whose body byte 0xFF is not valid UTF-8 makes
the decoder raise `UnicodeDecodeError` — decoding is strict, not lossy, so
the claim that undecodable bytes are silently replaced fails. -/
theorem c6_invalid_utf8_raises_concrete :
    (receivePacket (withInbox [[11, 0, 0, 0, 7, 0, 0, 0, 0, 0, 0, 0, 255, 0, 0]])).1
      = .error .unicodeDecodeError := rfl

/-- C6 amended: for every received payload whose body bytes are not valid
UTF-8, `_receive_packet` raises a fatal `UnicodeDecodeError` (strict
decoding); undecodable bytes are not replaced with replacement characters. -/
theorem c6_strict_decode_raises (rid pt : Int) (B : List Nat)
    (hr1 : -2147483648 ≤ rid) (hr2 : rid < 2147483648)
    (ht1 : -2147483648 ≤ pt) (ht2 : pt < 2147483648)
    (hlen : B.length + 10 < 2147483648)
    (hbad : utf8Decode? B = none) :
    (receivePacket (withInbox
        [le32 (10 + (B.length : Int)) ++ (le32 rid ++ le32 pt ++ B ++ [0, 0])])).1
      = .error .unicodeDecodeError := by
  rw [receivePacket_parse rid pt B hlen,
    parsePayload_wellformed _ rid pt B hr1 hr2 ht1 ht2, hbad]

/-- C6 amended witness: the amended statement at the concrete body byte 0xFF. -/
theorem c6_strict_decode_raises_witness :
    (receivePacket (withInbox
        [le32 (10 + (([255] : List Nat).length : Int)) ++
          (le32 7 ++ le32 0 ++ [255] ++ [0, 0])])).1 = .error .unicodeDecodeError :=
  c6_strict_decode_raises 7 0 [255] (by decide) (by decide) (by decide) (by decide)
    (by decide) (by decide)
